import Mathlib

/-!
Shallow embedding of the billing / costing engine of the
whisk-whisk-pastry-shop admin dashboard, and proofs about it.

JavaScript numbers are modelled as exact rationals (ℚ); the special value
NaN, which arises in the source when arithmetic meets an `undefined` field,
is modelled by `none` in `Option ℚ`.  A numeric form field can hold a
number, the blank string `''`, or be absent (`undefined`); JavaScript
coerces `''` to 0 and `undefined` to NaN when they reach arithmetic.
-/

namespace Whisk

/-- Value held by a numeric field of a form record: a number, the blank
string, or absent (`undefined`). -/
inductive JSField where
  | blank
  | missing
  | num (v : ℚ)
deriving DecidableEq

/-- JavaScript ToNumber as it applies to a raw field used as an arithmetic
operand: the blank string coerces to 0, `undefined` to NaN (`none`). -/
def toNumber : JSField → Option ℚ
  | .blank => some 0
  | .missing => none
  | .num v => some v

/-- Value of the guard expression `x || 0` (and, on this field domain,
equally of `ToNumber (x ?? 0)`): blank and missing both give 0. -/
def orZero : JSField → ℚ
  | .blank => 0
  | .missing => 0
  | .num v => v

/-- JavaScript addition on possibly-NaN numbers. -/
def jadd : Option ℚ → Option ℚ → Option ℚ
  | some a, some b => some (a + b)
  | _, _ => none

/-- JavaScript multiplication on possibly-NaN numbers. -/
def jmul : Option ℚ → Option ℚ → Option ℚ
  | some a, some b => some (a * b)
  | _, _ => none

/-- JavaScript subtraction on possibly-NaN numbers. -/
def jsub : Option ℚ → Option ℚ → Option ℚ
  | some a, some b => some (a - b)
  | _, _ => none

/-- Division by the literal 100, as in `item.discount / 100`. -/
def jdiv100 : Option ℚ → Option ℚ
  | some a => some (a / 100)
  | none => none

/-- One line of an invoice (`InvoiceItem` in src/types.ts); the numeric
fields are raw form values, since the form initialises them to `''` and
records loaded from the backend may omit them. -/
structure InvoiceItem where
  quantity : JSField
  price : JSField
  discount : JSField
  gst : JSField
deriving DecidableEq

/-- An invoice item all of whose numeric fields hold actual numbers. -/
def numItem (q p d g : ℚ) : InvoiceItem :=
  ⟨.num q, .num p, .num d, .num g⟩

/-- Result of the form-view totals computation (`totals` in
src/components/InvoiceForm.tsx). -/
structure Totals where
  subtotal : ℚ
  discountAmount : ℚ
  gstAmount : ℚ
  grandTotal : ℚ
  balanceDue : ℚ
deriving DecidableEq

/-- Loop body of the `for (const item of formData.items)` accumulation in
`totals` (src/components/InvoiceForm.tsx lines 43-51): the accumulator is
(subtotal, discountAmount, gstAmount), every field is guarded by `|| 0`. -/
def totalsStep (acc : ℚ × ℚ × ℚ) (item : InvoiceItem) : ℚ × ℚ × ℚ :=
  let itemSubtotal := orZero item.quantity * orZero item.price
  (acc.1 + itemSubtotal,
   acc.2.1 + itemSubtotal * (orZero item.discount / 100),
   acc.2.2 + (itemSubtotal - itemSubtotal * (orZero item.discount / 100))
       * (orZero item.gst / 100))

/-- Embeds `totals` of src/components/InvoiceForm.tsx (lines 41-55):
grandTotal = subtotal − discountAmount + gstAmount and
balanceDue = grandTotal − (amountPaid || 0). -/
def totals (items : List InvoiceItem) (amountPaid : JSField) : Totals :=
  let s := items.foldl totalsStep (0, 0, 0)
  let grandTotal := s.1 - s.2.1 + s.2.2
  { subtotal := s.1
    discountAmount := s.2.1
    gstAmount := s.2.2
    grandTotal := grandTotal
    balanceDue := grandTotal - orZero amountPaid }

/-- Embeds the `subtotal` reduce of `calculateInvoiceTotals` in
src/pages/Billing.tsx (line 147): `acc + (item.price * item.quantity)`
with no `|| 0` guards, so fields reach arithmetic raw. -/
def billingSubtotal (items : List InvoiceItem) : Option ℚ :=
  items.foldl
    (fun acc item => jadd acc (jmul (toNumber item.price) (toNumber item.quantity)))
    (some 0)

/-- Embeds the `discountAmount` reduce of `calculateInvoiceTotals` in
src/pages/Billing.tsx (line 148): `acc + (item.price * item.quantity *
(item.discount / 100))`, unguarded. -/
def billingDiscountAmount (items : List InvoiceItem) : Option ℚ :=
  items.foldl
    (fun acc item =>
      jadd acc (jmul (jmul (toNumber item.price) (toNumber item.quantity))
        (jdiv100 (toNumber item.discount))))
    (some 0)

/-- Embeds the `gstAmount` reduce of `calculateInvoiceTotals` in
src/pages/Billing.tsx (lines 149-153): per line,
`(itemTotal - itemDiscount) * (item.gst / 100)`, unguarded. -/
def billingGstAmount (items : List InvoiceItem) : Option ℚ :=
  items.foldl
    (fun acc item =>
      let itemTotal := jmul (toNumber item.price) (toNumber item.quantity)
      let itemDiscount := jmul itemTotal (jdiv100 (toNumber item.discount))
      jadd acc (jmul (jsub itemTotal itemDiscount) (jdiv100 (toNumber item.gst))))
    (some 0)

/-- Embeds `calculateInvoiceTotals` of src/pages/Billing.tsx (lines
146-157), returning the pair (subtotal, total) it produces, where
`total = subtotal - discountAmount + gstAmount`. -/
def calculateInvoiceTotals (items : List InvoiceItem) : Option ℚ × Option ℚ :=
  let subtotal := billingSubtotal items
  (subtotal,
   jadd (jsub subtotal (billingDiscountAmount items)) (billingGstAmount items))

/-- Embeds the `discountAmount` reduce of `InvoicePrint` in
src/pages/Billing.tsx (line 19); the expression is the same unguarded one
as in `calculateInvoiceTotals`. -/
def printDiscountAmount (items : List InvoiceItem) : Option ℚ :=
  items.foldl
    (fun acc item =>
      jadd acc (jmul (jmul (toNumber item.price) (toNumber item.quantity))
        (jdiv100 (toNumber item.discount))))
    (some 0)

/-- Embeds the `gstAmount` reduce of `InvoicePrint` in src/pages/Billing.tsx
(lines 20-24); the expression is the same unguarded one as in
`calculateInvoiceTotals`. -/
def printGstAmount (items : List InvoiceItem) : Option ℚ :=
  items.foldl
    (fun acc item =>
      let itemTotal := jmul (toNumber item.price) (toNumber item.quantity)
      let itemDiscount := jmul itemTotal (jdiv100 (toNumber item.discount))
      jadd acc (jmul (jsub itemTotal itemDiscount) (jdiv100 (toNumber item.gst))))
    (some 0)

/-- The per-line amount `itemSubtotal = (quantity || 0) * (price || 0)` of
the form-view accumulation. -/
def lineSubtotal (item : InvoiceItem) : ℚ :=
  orZero item.quantity * orZero item.price

/-- The per-line discount amount `itemSubtotal * ((discount || 0) / 100)`. -/
def lineDiscount (item : InvoiceItem) : ℚ :=
  lineSubtotal item * (orZero item.discount / 100)

/-- The per-line GST amount `(itemSubtotal - itemSubtotal * (discount || 0)
/ 100) * ((gst || 0) / 100)`, the tax base being the line after its own
discount. -/
def lineGst (item : InvoiceItem) : ℚ :=
  (lineSubtotal item - lineDiscount item) * (orZero item.gst / 100)

/-- Replacing blank and missing fields by the number 0; used to state that
the form-view totals treat them as 0. -/
def sanitizeField : JSField → JSField
  | .blank => .num 0
  | .missing => .num 0
  | .num v => .num v

/-- Sanitize every numeric field of an invoice item. -/
def sanitizeItem (item : InvoiceItem) : InvoiceItem :=
  ⟨sanitizeField item.quantity, sanitizeField item.price,
   sanitizeField item.discount, sanitizeField item.gst⟩

/-- An invoice item whose discount field is absent, as on an invoice loaded
from the backend without a discount key. -/
def missingDiscountItem : InvoiceItem :=
  ⟨.num 2, .num 100, .missing, .num 18⟩

/-- Payment status of an invoice (src/types.ts `PaymentStatus`). -/
inductive PaymentStatus where
  | Paid
  | Pending
  | Overdue
deriving DecidableEq

/-- Embeds the payment-status computation of `handleSubmit` in
src/components/InvoiceForm.tsx (lines 208-213):
`(formData.amountPaid ?? 0) >= totals.grandTotal && totals.grandTotal > 0`
yields Paid, anything else Pending.  On this field domain
`ToNumber (x ?? 0)` is `orZero`: `??` turns an absent field into 0 and the
comparison coerces the blank string to 0. -/
def computePaymentStatus (amountPaid : JSField) (grandTotal : ℚ) : PaymentStatus :=
  if grandTotal ≤ orZero amountPaid ∧ 0 < grandTotal then .Paid else .Pending

/-- Stock status labels (src/types.ts `StockStatus`). -/
inductive StockStatus where
  | OutOfStock
  | LowStock
  | InStock
deriving DecidableEq

/-- Stock item (src/types.ts `StockItem`), restricted to the fields the
costing engine reads; name, category, unit and sellingPrice are
presentation-only and omitted. -/
structure StockItem where
  id : String
  quantity : ℚ
  costPerUnit : ℚ
  lowStockThreshold : ℚ
deriving DecidableEq

/-- Embeds `getStockStatus` of src/unnamed/part_006 (lines 368-372):
quantity ≤ 0 first, then quantity ≤ lowStockThreshold, else InStock. -/
def getStockStatus (item : StockItem) : StockStatus :=
  if item.quantity ≤ 0 then .OutOfStock
  else if item.quantity ≤ item.lowStockThreshold then .LowStock
  else .InStock

/-- Embeds `lowStockItems` of src/unnamed/part_003 (lines 58-60): the
dashboard counts the items with `quantity <= lowStockThreshold`. -/
def lowStockItemsCount (items : List StockItem) : ℕ :=
  (items.filter (fun item => decide (item.quantity ≤ item.lowStockThreshold))).length

/-- One ingredient of a recipe (src/types.ts `RecipeIngredient`). -/
structure RecipeIngredient where
  stockItemId : String
  quantity : ℚ
deriving DecidableEq

/-- Recipe (src/types.ts `Recipe`), restricted to the fields the costing
engine reads. -/
structure Recipe where
  ingredients : List RecipeIngredient
  sellingPrice : ℚ
deriving DecidableEq

/-- Embeds the cost reduce shared by `manufacturingCost` in
src/components/RecipeForm.tsx (lines 23-31) and `recipeDetails` in
src/unnamed/part_004 (lines 85-91): fold over the ingredients, adding
`stockItem.costPerUnit * ingredient.quantity` for the first stock item
found with the ingredient's id, and nothing when none matches. -/
def manufacturingCost (stockItems : List StockItem)
    (ingredients : List RecipeIngredient) : ℚ :=
  ingredients.foldl
    (fun total ingredient =>
      match stockItems.find? (fun item => item.id == ingredient.stockItemId) with
      | some stockItem => total + stockItem.costPerUnit * ingredient.quantity
      | none => total)
    0

/-- Cost per unit the lookup in the cost reduce resolves an ingredient id
to: the costPerUnit of the first catalogue item with that id, 0 when none
matches. -/
def unitCost (stockItems : List StockItem) (sid : String) : ℚ :=
  match stockItems.find? (fun item => item.id == sid) with
  | some stockItem => stockItem.costPerUnit
  | none => 0

/-- Result of `recipeDetails` in src/unnamed/part_004. -/
structure RecipeDetails where
  cost : ℚ
  profit : ℚ
  margin : ℚ
deriving DecidableEq

/-- Embeds `recipeDetails` of src/unnamed/part_004 (lines 82-97):
cost as above, `profit = sellingPrice - cost`,
`margin = sellingPrice > 0 ? profit / sellingPrice * 100 : 0`. -/
def recipeDetails (recipe : Recipe) (stockItems : List StockItem) : RecipeDetails :=
  let cost := manufacturingCost stockItems recipe.ingredients
  let profit := recipe.sellingPrice - cost
  let margin := if 0 < recipe.sellingPrice then profit / recipe.sellingPrice * 100 else 0
  ⟨cost, profit, margin⟩

/-- ECMAScript `toFixed(2)` on an exact rational: the integer n of cents
closest to the value, ties resolved to the larger n, i.e. round half up to
the cent. -/
def toFixed2 (q : ℚ) : ℚ :=
  (⌊q * 100 + 1 / 2⌋ : ℚ) / 100

/-- Embeds the displayed recipe cost `recipeDetails.cost.toFixed(2)`
(src/unnamed/part_004 line 227, and `manufacturingCost.toFixed(2)` in
src/components/RecipeForm.tsx line 78): rounding is applied once, to the
already-summed cost. -/
def displayedCost (recipe : Recipe) (stockItems : List StockItem) : ℚ :=
  toFixed2 (recipeDetails recipe stockItems).cost

/-- Per-line-rounded variant of the cost, which the source does NOT
compute; defined only to show it can differ from rounding after the sum. -/
def perLineRoundedCost (recipe : Recipe) (stockItems : List StockItem) : ℚ :=
  (recipe.ingredients.map
    (fun ingredient => toFixed2 (ingredient.quantity * unitCost stockItems ingredient.stockItemId))).sum

/-- Recipe with two lines of half a cent each, exhibiting the difference
between rounding once after the sum and rounding per line. -/
def halfCentRecipe : Recipe :=
  ⟨[⟨"a", 1⟩, ⟨"b", 1⟩], 10⟩

/-- Catalogue pricing each of the two half-cent ingredients at 1/200. -/
def halfCentStock : List StockItem :=
  [⟨"a", 1, 1 / 200, 0⟩, ⟨"b", 1, 1 / 200, 0⟩]

/-- Replace the costPerUnit of the stock item at position j, leaving every
other field and every other item unchanged; the catalogue as it looks
after that item's cost increases. -/
def setCost (stockItems : List StockItem) (j : ℕ) (c : ℚ) : List StockItem :=
  match stockItems, j with
  | [], _ => []
  | item :: rest, 0 => ⟨item.id, item.quantity, c, item.lowStockThreshold⟩ :: rest
  | item :: rest, Nat.succ j => item :: setCost rest j c

/-- Model of a JavaScript Date timestamp: days since the epoch as a
rational (the fractional part is the time of day), in a model calendar
where every year has 365 days.  `getFullYear` is the floor of d / 365. -/
def yearOf (d : ℚ) : ℤ :=
  ⌊d / 365⌋

/-- Model of `setFullYear`: keep the position within the year, move to
year y. -/
def setFullYear (d : ℚ) (y : ℤ) : ℚ :=
  365 * (y : ℚ) + (d - 365 * (yearOf d : ℚ))

/-- Embeds `checkDate` of the customers-page 30-day event filter
(src/unnamed/part_004 lines 736-748): set the stored date to this year,
add one year when it is strictly before today, then test whether it is at
most 30 days from today. -/
def checkDate (stored today : ℚ) : Bool :=
  let eventDate := setFullYear stored (yearOf today)
  let eventDate :=
    if eventDate < today then setFullYear eventDate (yearOf today + 1) else eventDate
  decide (eventDate ≤ today + 30)

/-- Next occurrence of a stored month/day per the roll rule the spec
states: the stored date at today's year, plus one year exactly when that
date is strictly before today. -/
def nextOccurrence (stored today : ℚ) : ℚ :=
  let d := setFullYear stored (yearOf today)
  if d < today then setFullYear d (yearOf today + 1) else d

/-- Embeds `upcomingBirthdays` of the dashboard (src/unnamed/part_003
lines 62-72): count the birthdays whose occurrence at today's year lies
between today and today + 7, with no roll to next year. -/
def upcomingBirthdaysCount (birthdays : List ℚ) (today : ℚ) : ℕ :=
  (birthdays.filter
    (fun b =>
      let birthday := setFullYear b (yearOf today)
      decide (today ≤ birthday) && decide (birthday ≤ today + 7))).length

/-- Dashboard birthday count as it would be were the roll rule the spec
states applied: count the birthdays whose next occurrence lies within 7
days; defined from the spec's words, for comparison with
`upcomingBirthdaysCount`. -/
def upcomingBirthdaysSpecCount (birthdays : List ℚ) (today : ℚ) : ℕ :=
  (birthdays.filter (fun b => decide (nextOccurrence b today ≤ today + 7))).length

/-- Embeds the membership test of `upcomingEvents` on the customers page
(src/unnamed/part_004 lines 772-790): a stored date is listed exactly when
its occurrence at today's year is not before today — no roll to next
year. -/
def upcomingEventListed (stored today : ℚ) : Bool :=
  decide (today ≤ setFullYear stored (yearOf today))

/-- Model date for today in the counterexample: day 363 of model year
2025 (end of December), at noon. -/
def cexToday : ℚ :=
  365 * 2025 + 363 + 1 / 2

/-- Model date for the stored birthday in the counterexample: day 1 of
model year 1990 (start of January). -/
def cexBirthday : ℚ :=
  365 * 1990 + 1

/-- Observable effect of handling one HTTP response: whether the stored
token was removed from local storage, whether the browser was redirected
to the login view, and whether an error was thrown. -/
structure FetchEffect where
  tokenRemoved : Bool
  redirectedToLogin : Bool
  threw : Bool
deriving DecidableEq

/-- Embeds `fetchWithAuth` of src/utils/fetchWithAuth.ts (lines 3-19):
when the response status is 401 it removes the token, sets
`window.location.href` to the login view and throws; otherwise it returns
the response untouched. -/
def fetchWithAuthEffect (status : ℕ) : FetchEffect :=
  if status == 401 then ⟨true, true, true⟩ else ⟨false, false, false⟩

/-- Embeds the response handling of `fetchAllData` in src/pages/Billing.tsx
(lines 109-144): the three requests go through the raw `fetch` with only an
Authorization header; no status is inspected, and the catch block merely
logs, so no response status removes the token or redirects. -/
def billingFetchAllDataEffect (_status : ℕ) : FetchEffect :=
  ⟨false, false, false⟩

/-! Helper lemmas -/

lemma totals_foldl_eq (l : List InvoiceItem) :
    ∀ a b c : ℚ,
      l.foldl totalsStep (a, b, c)
        = (a + (l.map lineSubtotal).sum, b + (l.map lineDiscount).sum,
           c + (l.map lineGst).sum) := by
  induction l with
  | nil => intro a b c; simp
  | cons x xs ih =>
      intro a b c
      simp only [List.foldl_cons, totalsStep, List.map_cons, List.sum_cons]
      rw [ih]
      refine congrArg₂ Prod.mk ?_ (congrArg₂ Prod.mk ?_ ?_) <;>
        simp only [lineSubtotal, lineDiscount, lineGst] <;> ring

lemma totals_eq_sums (items : List InvoiceItem) (amountPaid : JSField) :
    totals items amountPaid =
      ⟨(items.map lineSubtotal).sum,
       (items.map lineDiscount).sum,
       (items.map lineGst).sum,
       (items.map lineSubtotal).sum - (items.map lineDiscount).sum
         + (items.map lineGst).sum,
       (items.map lineSubtotal).sum - (items.map lineDiscount).sum
         + (items.map lineGst).sum - orZero amountPaid⟩ := by
  have h := totals_foldl_eq items 0 0 0
  simp only [totals, h]
  simp

lemma foldl_jadd_eq_sum {α : Type} (f : α → Option ℚ) (g : α → ℚ)
    (l : List α) (h : ∀ x ∈ l, f x = some (g x)) :
    ∀ a : ℚ,
      l.foldl (fun acc x => jadd acc (f x)) (some a) = some (a + (l.map g).sum) := by
  induction l with
  | nil => intro a; simp
  | cons x xs ih =>
      intro a
      have hx : jadd (some a) (f x) = some (a + g x) := by
        rw [h x (by simp)]; rfl
      simp only [List.foldl_cons, List.map_cons, List.sum_cons, hx]
      rw [ih (fun y hy => h y (by simp [hy]))]
      exact congrArg some (by ring)

lemma toNumber_eq_some {f : JSField} (h : f ≠ .missing) :
    toNumber f = some (orZero f) := by
  cases f with
  | blank => rfl
  | missing => exact absurd rfl h
  | num v => rfl

/-- Fields of an invoice item that are numbers or blank, never absent. -/
def NoMissing (item : InvoiceItem) : Prop :=
  item.quantity ≠ .missing ∧ item.price ≠ .missing
    ∧ item.discount ≠ .missing ∧ item.gst ≠ .missing

lemma billingSubtotal_eq_sum (items : List InvoiceItem)
    (h : ∀ it ∈ items, NoMissing it) :
    billingSubtotal items
      = some ((items.map fun it => orZero it.price * orZero it.quantity).sum) := by
  have := foldl_jadd_eq_sum
    (fun it => jmul (toNumber it.price) (toNumber it.quantity))
    (fun it => orZero it.price * orZero it.quantity) items
    (fun it hit => by
      obtain ⟨h1, h2, h3, h4⟩ := h it hit
      simp [toNumber_eq_some h2, toNumber_eq_some h1, jmul]) 0
  simpa [billingSubtotal] using this

lemma billingDiscountAmount_eq_sum (items : List InvoiceItem)
    (h : ∀ it ∈ items, NoMissing it) :
    billingDiscountAmount items
      = some ((items.map fun it =>
          orZero it.price * orZero it.quantity * (orZero it.discount / 100)).sum) := by
  have := foldl_jadd_eq_sum
    (fun it => jmul (jmul (toNumber it.price) (toNumber it.quantity))
      (jdiv100 (toNumber it.discount)))
    (fun it => orZero it.price * orZero it.quantity * (orZero it.discount / 100)) items
    (fun it hit => by
      obtain ⟨h1, h2, h3, h4⟩ := h it hit
      simp [toNumber_eq_some h1, toNumber_eq_some h2, toNumber_eq_some h3,
        jmul, jdiv100]) 0
  simpa [billingDiscountAmount] using this

lemma billingGstAmount_eq_sum (items : List InvoiceItem)
    (h : ∀ it ∈ items, NoMissing it) :
    billingGstAmount items
      = some ((items.map fun it =>
          (orZero it.price * orZero it.quantity
            - orZero it.price * orZero it.quantity * (orZero it.discount / 100))
          * (orZero it.gst / 100)).sum) := by
  have := foldl_jadd_eq_sum
    (fun it =>
      jmul (jsub (jmul (toNumber it.price) (toNumber it.quantity))
        (jmul (jmul (toNumber it.price) (toNumber it.quantity))
          (jdiv100 (toNumber it.discount))))
        (jdiv100 (toNumber it.gst)))
    (fun it =>
      (orZero it.price * orZero it.quantity
        - orZero it.price * orZero it.quantity * (orZero it.discount / 100))
      * (orZero it.gst / 100)) items
    (fun it hit => by
      obtain ⟨h1, h2, h3, h4⟩ := h it hit
      simp [toNumber_eq_some h1, toNumber_eq_some h2, toNumber_eq_some h3,
        toNumber_eq_some h4, jmul, jsub, jdiv100]) 0
  simpa [billingGstAmount] using this

lemma numItem_noMissing (q p d g : ℚ) : NoMissing (numItem q p d g) := by
  simp [NoMissing, numItem]

lemma manufacturingCost_foldl_eq (stockItems : List StockItem) :
    ∀ (ingredients : List RecipeIngredient) (a : ℚ),
      ingredients.foldl
        (fun total ingredient =>
          match stockItems.find? (fun item => item.id == ingredient.stockItemId) with
          | some stockItem => total + stockItem.costPerUnit * ingredient.quantity
          | none => total)
        a
      = a + (ingredients.map
          fun ing => ing.quantity * unitCost stockItems ing.stockItemId).sum := by
  intro ingredients
  induction ingredients with
  | nil => intro a; simp
  | cons ing rest ih =>
      intro a
      simp only [List.foldl_cons, List.map_cons, List.sum_cons]
      rw [ih]
      cases h : stockItems.find? (fun item => item.id == ing.stockItemId) with
      | some stockItem => simp only [unitCost, h]; ring
      | none => simp only [unitCost, h]; ring

lemma manufacturingCost_eq_sum (stockItems : List StockItem)
    (ingredients : List RecipeIngredient) :
    manufacturingCost stockItems ingredients
      = (ingredients.map
          fun ing => ing.quantity * unitCost stockItems ing.stockItemId).sum := by
  have h := manufacturingCost_foldl_eq stockItems ingredients 0
  simpa [manufacturingCost] using h

lemma orZero_sanitizeField (f : JSField) : orZero (sanitizeField f) = orZero f := by
  cases f <;> rfl

lemma sanitizeField_ne_missing (f : JSField) : sanitizeField f ≠ .missing := by
  cases f <;> simp [sanitizeField]

lemma sanitizeItem_noMissing (item : InvoiceItem) : NoMissing (sanitizeItem item) :=
  ⟨sanitizeField_ne_missing _, sanitizeField_ne_missing _,
   sanitizeField_ne_missing _, sanitizeField_ne_missing _⟩

lemma lineSubtotal_sanitize (item : InvoiceItem) :
    lineSubtotal (sanitizeItem item) = lineSubtotal item := by
  simp [lineSubtotal, sanitizeItem, orZero_sanitizeField]

lemma lineDiscount_sanitize (item : InvoiceItem) :
    lineDiscount (sanitizeItem item) = lineDiscount item := by
  unfold lineDiscount
  rw [lineSubtotal_sanitize,
    show (sanitizeItem item).discount = sanitizeField item.discount from rfl,
    orZero_sanitizeField]

lemma lineGst_sanitize (item : InvoiceItem) :
    lineGst (sanitizeItem item) = lineGst item := by
  unfold lineGst
  rw [lineSubtotal_sanitize, lineDiscount_sanitize,
    show (sanitizeItem item).gst = sanitizeField item.gst from rfl,
    orZero_sanitizeField]

lemma unitCost_setCost_le (stockItems : List StockItem) :
    ∀ (j : ℕ) (c : ℚ),
      (∀ h : j < stockItems.length, (stockItems.get ⟨j, h⟩).costPerUnit ≤ c) →
      ∀ sid, unitCost stockItems sid ≤ unitCost (setCost stockItems j c) sid := by
  induction stockItems with
  | nil =>
      intro j c _ sid
      exact le_refl _
  | cons x rest ih =>
      intro j c h sid
      cases j with
      | zero =>
          have hx : x.costPerUnit ≤ c := by
            have := h (by simp)
            simpa using this
          show unitCost (x :: rest) sid
            ≤ unitCost (⟨x.id, x.quantity, c, x.lowStockThreshold⟩ :: rest) sid
          by_cases hid : (x.id == sid) = true
          · simp only [unitCost, List.find?, hid]
            exact hx
          · have hid2 : (x.id == sid) = false := by simpa using hid
            simp only [unitCost, List.find?, hid2]
            exact le_refl _
      | succ j =>
          show unitCost (x :: rest) sid ≤ unitCost (x :: setCost rest j c) sid
          by_cases hid : (x.id == sid) = true
          · simp only [unitCost, List.find?, hid]
            exact le_refl _
          · have hid2 : (x.id == sid) = false := by simpa using hid
            simp only [unitCost, List.find?, hid2]
            have hrest : ∀ hlt : j < rest.length, (rest.get ⟨j, hlt⟩).costPerUnit ≤ c := by
              intro hlt
              have := h (Nat.succ_lt_succ hlt)
              simpa using this
            exact ih j c hrest sid

lemma length_filter_le_of_imp {α : Type} (p q : α → Bool) :
    ∀ l : List α, (∀ x ∈ l, p x = true → q x = true) →
      (l.filter p).length ≤ (l.filter q).length := by
  intro l
  induction l with
  | nil => intro _; exact le_refl _
  | cons x xs ih =>
      intro h
      have hxs := ih (fun y hy => h y (by simp [hy]))
      by_cases hp : p x = true
      · have hq := h x (by simp) hp
        rw [List.filter_cons_of_pos hp, List.filter_cons_of_pos hq]
        exact Nat.succ_le_succ hxs
      · rw [List.filter_cons_of_neg (by simpa using hp)]
        by_cases hq : q x = true
        · rw [List.filter_cons_of_pos hq]
          exact Nat.le_succ_of_le hxs
        · rw [List.filter_cons_of_neg (by simpa using hq)]
          exact hxs

/-! Claim theorems -/

/-- C1: for every list of invoice items with non-negative quantity, price,
discount and gst, both totals calculators (form view and save path) yield
grandTotal = Σ q·p − Σ q·p·(d/100) + Σ (q·p·(1−d/100))·(g/100), with
discount and GST applied per line; the single item
{qty 2, price 100, discount 10, gst 18} yields subtotal 200, discount 20,
gst 32.4, grandTotal 212.4. -/
theorem invoice_totals_grand_total (l : List (ℚ × ℚ × ℚ × ℚ))
    (hnn : ∀ x ∈ l, 0 ≤ x.1 ∧ 0 ≤ x.2.1 ∧ 0 ≤ x.2.2.1 ∧ 0 ≤ x.2.2.2)
    (amountPaid : JSField) :
    (totals (l.map fun x => numItem x.1 x.2.1 x.2.2.1 x.2.2.2) amountPaid).grandTotal
        = (l.map fun x => x.1 * x.2.1).sum
          - (l.map fun x => x.1 * x.2.1 * (x.2.2.1 / 100)).sum
          + (l.map fun x => x.1 * x.2.1 * (1 - x.2.2.1 / 100) * (x.2.2.2 / 100)).sum
    ∧ (calculateInvoiceTotals (l.map fun x => numItem x.1 x.2.1 x.2.2.1 x.2.2.2)).2
        = some ((l.map fun x => x.1 * x.2.1).sum
          - (l.map fun x => x.1 * x.2.1 * (x.2.2.1 / 100)).sum
          + (l.map fun x => x.1 * x.2.1 * (1 - x.2.2.1 / 100) * (x.2.2.2 / 100)).sum)
    ∧ totals [numItem 2 100 10 18] (.num 0)
        = ⟨200, 20, 32.4, 212.4, 212.4⟩ := by
  have e1 : ∀ x : ℚ × ℚ × ℚ × ℚ,
      lineSubtotal (numItem x.1 x.2.1 x.2.2.1 x.2.2.2) = x.1 * x.2.1 := by
    intro x; simp only [lineSubtotal, numItem, orZero]
  have e2 : ∀ x : ℚ × ℚ × ℚ × ℚ,
      lineDiscount (numItem x.1 x.2.1 x.2.2.1 x.2.2.2)
        = x.1 * x.2.1 * (x.2.2.1 / 100) := by
    intro x; simp only [lineDiscount, lineSubtotal, numItem, orZero]
  have e3 : ∀ x : ℚ × ℚ × ℚ × ℚ,
      lineGst (numItem x.1 x.2.1 x.2.2.1 x.2.2.2)
        = x.1 * x.2.1 * (1 - x.2.2.1 / 100) * (x.2.2.2 / 100) := by
    intro x
    simp only [lineGst, lineDiscount, lineSubtotal, numItem, orZero]
    ring
  refine ⟨?_, ?_, ?_⟩
  · rw [totals_eq_sums]
    simp only [List.map_map, Function.comp_def, e1, e2, e3]
  · have hm : ∀ it ∈ l.map fun x => numItem x.1 x.2.1 x.2.2.1 x.2.2.2, NoMissing it := by
      intro it hit
      obtain ⟨x, hx, rfl⟩ := List.mem_map.mp hit
      exact numItem_noMissing x.1 x.2.1 x.2.2.1 x.2.2.2
    have hs := billingSubtotal_eq_sum _ hm
    have hd := billingDiscountAmount_eq_sum _ hm
    have hg := billingGstAmount_eq_sum _ hm
    have ms : ((l.map fun x => numItem x.1 x.2.1 x.2.2.1 x.2.2.2).map
        fun it => orZero it.price * orZero it.quantity) = l.map fun x => x.1 * x.2.1 := by
      simp only [List.map_map]
      refine congrArg (fun f => List.map f l) ?_
      funext x
      simp only [Function.comp_apply, numItem, orZero]
      ring
    have md : ((l.map fun x => numItem x.1 x.2.1 x.2.2.1 x.2.2.2).map
        fun it => orZero it.price * orZero it.quantity * (orZero it.discount / 100))
        = l.map fun x => x.1 * x.2.1 * (x.2.2.1 / 100) := by
      simp only [List.map_map]
      refine congrArg (fun f => List.map f l) ?_
      funext x
      simp only [Function.comp_apply, numItem, orZero]
      ring
    have mg : ((l.map fun x => numItem x.1 x.2.1 x.2.2.1 x.2.2.2).map
        fun it => (orZero it.price * orZero it.quantity
          - orZero it.price * orZero it.quantity * (orZero it.discount / 100))
          * (orZero it.gst / 100))
        = l.map fun x => x.1 * x.2.1 * (1 - x.2.2.1 / 100) * (x.2.2.2 / 100) := by
      simp only [List.map_map]
      refine congrArg (fun f => List.map f l) ?_
      funext x
      simp only [Function.comp_apply, numItem, orZero]
      ring
    rw [ms] at hs
    rw [md] at hd
    rw [mg] at hg
    simp only [calculateInvoiceTotals, hs, hd, hg, jsub, jadd]
  · norm_num [totals, totalsStep, numItem, orZero]

/-- C1 witness: the theorem applied to the single concrete item
{qty 2, price 100, discount 10, gst 18} with nothing paid. -/
theorem invoice_totals_grand_total_witness :
    totals [numItem 2 100 10 18] (.num 0) = ⟨200, 20, 32.4, 212.4, 212.4⟩ :=
  (invoice_totals_grand_total [(2, 100, 10, 18)] (by norm_num) (.num 0)).2.2

/-- C2: the stock status classifier is a pure total function of
(quantity, lowStockThreshold): OutOfStock when quantity ≤ 0 (whatever the
threshold — that rule has priority), else LowStock when quantity ≤
threshold, else InStock; quantity 0 with threshold 5 is OutOfStock, not
LowStock. -/
theorem stock_status_classifier (item : StockItem) :
    (item.quantity ≤ 0 → getStockStatus item = .OutOfStock)
    ∧ (0 < item.quantity → item.quantity ≤ item.lowStockThreshold →
        getStockStatus item = .LowStock)
    ∧ (0 < item.quantity → item.lowStockThreshold < item.quantity →
        getStockStatus item = .InStock)
    ∧ getStockStatus ⟨"", 0, 0, 5⟩ = .OutOfStock
    ∧ getStockStatus ⟨"", 0, 0, 5⟩ ≠ .LowStock := by
  refine ⟨?_, ?_, ?_, ?_, ?_⟩
  · intro h; simp [getStockStatus, h]
  · intro h1 h2; simp [getStockStatus, not_le.mpr h1, h2]
  · intro h1 h2; simp [getStockStatus, not_le.mpr h1, not_le.mpr h2]
  · norm_num [getStockStatus]
  · norm_num [getStockStatus]
    intro h
    exact StockStatus.noConfusion h

/-- C3: the recipe cost rollup returns cost = Σ ingredient.quantity ×
(costPerUnit of the catalogue item matching the ingredient's stockItemId,
0 when none matches), profit = sellingPrice − cost, and margin =
profit / sellingPrice × 100 when sellingPrice > 0 and 0 when
sellingPrice ≤ 0. -/
theorem recipe_cost_rollup (recipe : Recipe) (stockItems : List StockItem) :
    (recipeDetails recipe stockItems).cost
        = (recipe.ingredients.map
            fun ing => ing.quantity * unitCost stockItems ing.stockItemId).sum
    ∧ (recipeDetails recipe stockItems).profit
        = recipe.sellingPrice - (recipeDetails recipe stockItems).cost
    ∧ (0 < recipe.sellingPrice →
        (recipeDetails recipe stockItems).margin
          = (recipeDetails recipe stockItems).profit / recipe.sellingPrice * 100)
    ∧ (recipe.sellingPrice ≤ 0 → (recipeDetails recipe stockItems).margin = 0) := by
  refine ⟨manufacturingCost_eq_sum stockItems recipe.ingredients, rfl, ?_, ?_⟩
  · intro h
    simp [recipeDetails, h]
  · intro h
    simp [recipeDetails, not_lt.mpr h]

/-- C4: the displayed recipe cost is the unrounded ingredient sum rounded
to 2 decimal places once, after the summation, by round-half-up to the
cent; rounding per line can differ, as the two-half-cent recipe shows, and
an exact half cent rounds up. -/
theorem recipe_cost_rounding (recipe : Recipe) (stockItems : List StockItem) :
    displayedCost recipe stockItems
        = toFixed2 ((recipe.ingredients.map
            fun ing => ing.quantity * unitCost stockItems ing.stockItemId).sum)
    ∧ toFixed2 (1 / 200) = 1 / 100
    ∧ displayedCost halfCentRecipe halfCentStock = 1 / 100
    ∧ perLineRoundedCost halfCentRecipe halfCentStock = 2 / 100 := by
  refine ⟨?_, by norm_num [toFixed2], ?_, ?_⟩
  · unfold displayedCost
    rw [show (recipeDetails recipe stockItems).cost
        = manufacturingCost stockItems recipe.ingredients from rfl]
    rw [manufacturingCost_eq_sum]
  · norm_num [displayedCost, toFixed2, recipeDetails, manufacturingCost, halfCentRecipe,
      halfCentStock, List.find?, (by decide : (("a" : String) == "b") = false),
      (by decide : (("b" : String) == "a") = false)]
  · norm_num [perLineRoundedCost, toFixed2, unitCost, halfCentRecipe, halfCentStock,
      List.find?, (by decide : (("a" : String) == "b") = false),
      (by decide : (("b" : String) == "a") = false)]

/-- C5 counterexample: on the concrete item {qty 2, price 100, gst 18}
whose discount field is absent, the save-path calculator and the print
view produce NaN (`none`) totals, while the form view coerces the field to
0 and yields the finite grand total 236. -/
theorem invoice_totals_nan_cex :
    (calculateInvoiceTotals [missingDiscountItem]).2 = none
    ∧ printDiscountAmount [missingDiscountItem] = none
    ∧ printGstAmount [missingDiscountItem] = none
    ∧ (totals [missingDiscountItem] (.num 0)).grandTotal = 236 := by
  refine ⟨?_, ?_, ?_, ?_⟩
  · simp [calculateInvoiceTotals, billingSubtotal, billingDiscountAmount, billingGstAmount,
      missingDiscountItem, toNumber, jadd, jmul, jsub, jdiv100]
  · simp [printDiscountAmount, missingDiscountItem, toNumber, jadd, jmul, jsub, jdiv100]
  · simp [printGstAmount, missingDiscountItem, toNumber, jadd, jmul, jsub, jdiv100]
  · norm_num [totals, totalsStep, missingDiscountItem, orZero]

/-- C5 amended: the form-view totals treat missing or blank numeric fields
as 0 and always return finite rationals, and the save-path calculator
returns finite values on every item list with no absent field (blank
coerces to 0 there too, `ToNumber of the blank string being 0`); only an
absent field makes the save-path and print-view totals NaN, as the
counterexample shows. -/
theorem invoice_totals_nan_guard :
    (∀ (items : List InvoiceItem) (amountPaid : JSField),
        totals items amountPaid
          = totals (items.map sanitizeItem) (sanitizeField amountPaid))
    ∧ (∀ items : List InvoiceItem,
        (calculateInvoiceTotals (items.map sanitizeItem)).1.isSome = true
        ∧ (calculateInvoiceTotals (items.map sanitizeItem)).2.isSome = true)
    ∧ toNumber .blank = some 0
    ∧ toNumber .missing = none := by
  refine ⟨?_, ?_, rfl, rfl⟩
  · intro items amountPaid
    rw [totals_eq_sums, totals_eq_sums]
    simp only [List.map_map, Function.comp_def, lineSubtotal_sanitize,
      lineDiscount_sanitize, lineGst_sanitize, orZero_sanitizeField]
  · intro items
    have hm : ∀ it ∈ items.map sanitizeItem, NoMissing it := by
      intro it hit
      obtain ⟨y, hy, rfl⟩ := List.mem_map.mp hit
      exact sanitizeItem_noMissing y
    simp only [calculateInvoiceTotals, billingSubtotal_eq_sum _ hm,
      billingDiscountAmount_eq_sum _ hm, billingGstAmount_eq_sum _ hm,
      jsub, jadd, Option.isSome_some, and_self]

/-- C6 counterexample: today is day 363 of model year 2025 and the stored
birthday falls on day 1 of the year.  The roll rule puts its next
occurrence 2.5 days away, and the customers-page 30-day filter
(`checkDate`), which does roll, accepts it; but the dashboard's 7-day
birthday count and the customers-page upcoming list drop it instead of
rolling it to next year. -/
theorem event_recurrence_cex :
    checkDate cexBirthday cexToday = true
    ∧ nextOccurrence cexBirthday cexToday ≤ cexToday + 7
    ∧ upcomingBirthdaysCount [cexBirthday] cexToday = 0
    ∧ upcomingBirthdaysSpecCount [cexBirthday] cexToday = 1
    ∧ upcomingEventListed cexBirthday cexToday = false := by
  refine ⟨?_, ?_, ?_, ?_, ?_⟩
  · norm_num [checkDate, cexBirthday, cexToday, setFullYear, yearOf]
  · norm_num [nextOccurrence, cexBirthday, cexToday, setFullYear, yearOf]
  · norm_num [upcomingBirthdaysCount, cexBirthday, cexToday, setFullYear, yearOf,
      List.filter]
  · norm_num [upcomingBirthdaysSpecCount, nextOccurrence, cexBirthday, cexToday,
      setFullYear, yearOf, List.filter]
  · norm_num [upcomingEventListed, cexBirthday, cexToday, setFullYear, yearOf]

/-- C6 amended: the customers-page 30-day filter `checkDate` does apply
the roll rule — it accepts a date exactly when the rule's next occurrence
is within 30 days, and that next occurrence is never before today; but the
dashboard count and the upcoming-events list apply the rule only on dates
not yet passed this year: the dashboard count agrees with the rolled count
exactly when no date in the list has passed, and the upcoming list agrees
with the rule on such dates. -/
theorem event_recurrence_amended :
    (∀ stored today : ℚ,
        (checkDate stored today = true ↔ nextOccurrence stored today ≤ today + 30))
    ∧ (∀ stored today : ℚ, today ≤ nextOccurrence stored today)
    ∧ (∀ (birthdays : List ℚ) (today : ℚ),
        (∀ b ∈ birthdays, today ≤ setFullYear b (yearOf today)) →
        upcomingBirthdaysCount birthdays today
          = upcomingBirthdaysSpecCount birthdays today)
    ∧ (∀ stored today : ℚ, today ≤ setFullYear stored (yearOf today) →
        upcomingEventListed stored today = true
        ∧ nextOccurrence stored today = setFullYear stored (yearOf today)) := by
  refine ⟨?_, ?_, ?_, ?_⟩
  · intro stored today
    rw [show checkDate stored today
        = decide (nextOccurrence stored today ≤ today + 30) from rfl]
    exact decide_eq_true_iff
  · intro stored today
    unfold nextOccurrence
    by_cases h : setFullYear stored (yearOf today) < today
    · rw [if_pos h]
      unfold setFullYear yearOf
      have h1 : (365 : ℚ) * (⌊setFullYear stored (yearOf today) / 365⌋ : ℚ)
          ≤ setFullYear stored (yearOf today) := by
        have h2 := Int.floor_le (setFullYear stored (yearOf today) / 365)
        have h3 := mul_le_mul_of_nonneg_left h2 (by norm_num : (0:ℚ) ≤ 365)
        rwa [mul_div_cancel₀ _ (by norm_num : (365:ℚ) ≠ 0)] at h3
      have h4 : today < 365 * ((⌊today / 365⌋ : ℚ) + 1) := by
        have h5 := Int.lt_floor_add_one (today / 365)
        have h6 := mul_lt_mul_of_pos_left h5 (by norm_num : (0:ℚ) < 365)
        rwa [mul_div_cancel₀ _ (by norm_num : (365:ℚ) ≠ 0)] at h6
      unfold setFullYear yearOf at h1
      push_cast
      push_cast at h1 h4
      linarith
    · rw [if_neg h]
      exact not_lt.mp h
  · intro birthdays today h
    unfold upcomingBirthdaysCount upcomingBirthdaysSpecCount
    refine congrArg List.length (List.filter_congr ?_)
    intro b hb
    have hb2 := h b hb
    have hno : nextOccurrence b today = setFullYear b (yearOf today) := by
      show (if setFullYear b (yearOf today) < today
          then setFullYear (setFullYear b (yearOf today)) (yearOf today + 1)
          else setFullYear b (yearOf today)) = setFullYear b (yearOf today)
      exact if_neg (not_lt.mpr hb2)
    show (decide (today ≤ setFullYear b (yearOf today))
          && decide (setFullYear b (yearOf today) ≤ today + 7))
        = decide (nextOccurrence b today ≤ today + 7)
    rw [hno, decide_eq_true hb2, Bool.true_and]
  · intro stored today h
    refine ⟨decide_eq_true h, ?_⟩
    show (if setFullYear stored (yearOf today) < today
        then setFullYear (setFullYear stored (yearOf today)) (yearOf today + 1)
        else setFullYear stored (yearOf today)) = setFullYear stored (yearOf today)
    exact if_neg (not_lt.mpr h)

/-- C7 counterexample: a 401 response on the billing page's data fetch
removes no token and triggers no redirect, though the fetchWithAuth
wrapper would do both — the 401 rule does not hold on every request
path. -/
theorem fetch_auth_401_cex :
    (billingFetchAllDataEffect 401).tokenRemoved = false
    ∧ (billingFetchAllDataEffect 401).redirectedToLogin = false
    ∧ (fetchWithAuthEffect 401).tokenRemoved = true
    ∧ (fetchWithAuthEffect 401).redirectedToLogin = true :=
  ⟨rfl, rfl, rfl, rfl⟩

/-- C7 amended: every request issued through fetchWithAuth removes the
stored token and redirects to the login view exactly on a 401 response
(and throws); but the billing page's fetchAllData issues its requests with
the raw fetch and never removes the token or redirects, whatever the
status. -/
theorem fetch_auth_401 :
    (∀ status : ℕ,
        ((fetchWithAuthEffect status).tokenRemoved = true ↔ status = 401)
        ∧ ((fetchWithAuthEffect status).redirectedToLogin = true ↔ status = 401)
        ∧ ((fetchWithAuthEffect status).threw = true ↔ status = 401))
    ∧ (∀ status : ℕ,
        (billingFetchAllDataEffect status).tokenRemoved = false
        ∧ (billingFetchAllDataEffect status).redirectedToLogin = false) := by
  constructor
  · intro status
    by_cases h : status = 401 <;>
      simp [fetchWithAuthEffect, h]
  · intro status
    exact ⟨rfl, rfl⟩

/-- C8: on save the client computes Paid exactly when amountPaid ≥
grandTotal and grandTotal > 0, else Pending, and never Overdue; the empty
invoice has grand total 0 and is Pending. -/
theorem payment_status_on_save (amountPaid : JSField) (grandTotal : ℚ) :
    (computePaymentStatus amountPaid grandTotal = .Paid ↔
        grandTotal ≤ orZero amountPaid ∧ 0 < grandTotal)
    ∧ (computePaymentStatus amountPaid grandTotal = .Paid
        ∨ computePaymentStatus amountPaid grandTotal = .Pending)
    ∧ computePaymentStatus amountPaid grandTotal ≠ .Overdue
    ∧ (totals [] (.num 0)).grandTotal = 0
    ∧ computePaymentStatus (.num 0) ((totals [] (.num 0)).grandTotal) = .Pending := by
  have hempty : (totals [] (.num 0)).grandTotal = 0 := by
    norm_num [totals, orZero]
  refine ⟨?_, ?_, ?_, hempty, ?_⟩
  · unfold computePaymentStatus
    by_cases h : grandTotal ≤ orZero amountPaid ∧ 0 < grandTotal
    · simp [h]
    · simp [if_neg h, h]
  · unfold computePaymentStatus
    split
    · exact Or.inl rfl
    · exact Or.inr rfl
  · unfold computePaymentStatus
    split
    · intro hx; exact PaymentStatus.noConfusion hx
    · intro hx; exact PaymentStatus.noConfusion hx
  · rw [hempty]
    norm_num [computePaymentStatus, orZero]

/-- C9: raising the costPerUnit of a stock item matched by some ingredient
of the recipe (ingredient quantities being non-negative) never decreases
the recipe's computed manufacturing cost. -/
theorem recipe_cost_monotone (recipe : Recipe) (stockItems : List StockItem)
    (j : ℕ) (c : ℚ)
    (hq : ∀ ing ∈ recipe.ingredients, 0 ≤ ing.quantity)
    (hj : j < stockItems.length)
    (hc : (stockItems.get ⟨j, hj⟩).costPerUnit ≤ c)
    (hmatch : ∃ ing ∈ recipe.ingredients,
        ing.stockItemId = (stockItems.get ⟨j, hj⟩).id) :
    (recipeDetails recipe stockItems).cost
      ≤ (recipeDetails recipe (setCost stockItems j c)).cost := by
  have key : ∀ sid, unitCost stockItems sid ≤ unitCost (setCost stockItems j c) sid :=
    unitCost_setCost_le stockItems j c (fun _ => hc)
  rw [show (recipeDetails recipe stockItems).cost
      = manufacturingCost stockItems recipe.ingredients from rfl,
    show (recipeDetails recipe (setCost stockItems j c)).cost
      = manufacturingCost (setCost stockItems j c) recipe.ingredients from rfl,
    manufacturingCost_eq_sum, manufacturingCost_eq_sum]
  refine List.sum_le_sum ?_
  intro ing hing
  exact mul_le_mul_of_nonneg_left (key ing.stockItemId) (hq ing hing)

/-- C9 witness: one recipe using 2 units of stock item a; raising a's
costPerUnit from 5 to 7 raises the computed cost from 10 to at least 10. -/
theorem recipe_cost_monotone_witness :
    (recipeDetails ⟨[⟨"a", 2⟩], 0⟩ [⟨"a", 1, 5, 0⟩]).cost
      ≤ (recipeDetails ⟨[⟨"a", 2⟩], 0⟩ (setCost [⟨"a", 1, 5, 0⟩] 0 7)).cost := by
  refine recipe_cost_monotone ⟨[⟨"a", 2⟩], 0⟩ [⟨"a", 1, 5, 0⟩] 0 7 ?_ (by norm_num) (by norm_num) ?_
  · intro ing hing
    simp only [List.mem_singleton] at hing
    subst hing
    norm_num
  · exact ⟨⟨"a", 2⟩, by simp, rfl⟩

/-- C10 (implicit): the dashboard's low-stock count uses quantity ≤
threshold only, so it is at least the number of items the classifier
labels LowStock, and any item with quantity ≤ 0 and threshold ≥ 0 is
counted although the classifier labels it OutOfStock. -/
theorem dashboard_low_stock_count (items : List StockItem) :
    (items.filter fun i => decide (getStockStatus i = .LowStock)).length
        ≤ lowStockItemsCount items
    ∧ (∀ i : StockItem, i.quantity ≤ 0 → 0 ≤ i.lowStockThreshold →
        getStockStatus i = .OutOfStock
        ∧ decide (i.quantity ≤ i.lowStockThreshold) = true) := by
  constructor
  · unfold lowStockItemsCount
    refine length_filter_le_of_imp _ _ items ?_
    intro i _ hp
    have h1 : getStockStatus i = .LowStock := of_decide_eq_true hp
    unfold getStockStatus at h1
    by_cases h2 : i.quantity ≤ 0
    · rw [if_pos h2] at h1
      exact absurd h1 (fun hx => StockStatus.noConfusion hx)
    · rw [if_neg h2] at h1
      by_cases h3 : i.quantity ≤ i.lowStockThreshold
      · exact decide_eq_true h3
      · rw [if_neg h3] at h1
        exact absurd h1 (fun hx => StockStatus.noConfusion hx)
  · intro i h1 h2
    refine ⟨by simp [getStockStatus, h1], decide_eq_true (le_trans h1 h2)⟩

end Whisk
